import Mathlib

/-!
Verification of the binary-resolution logic of the Odin extension
(`src/odin.rs`, `OdinExtension::language_server_binary`).

The Rust function is embedded shallowly: every external effect the function
performs (reading LSP settings, searching the PATH via `worktree.which`,
checking file liveness via `fs::metadata`, querying the GitHub release feed,
creating directories, downloading, marking executable, listing and removing
working-directory entries, and signalling installation status) is modelled by
a field of a `World` record supplying that effect's outcome, and the function
returns — besides its `Result<OlsBinary>` — the updated cached path, the
final working-directory entries, and a trace of the effects it performed,
in order.
-/

namespace ZedOdin

/-- `zed::Os` — the operating systems distinguished by the extension. -/
inductive Os where
  | mac
  | linux
  | windows
  deriving DecidableEq

/-- `zed::Architecture` — the CPU architectures distinguished by the extension. -/
inductive Architecture where
  | aarch64
  | x86
  | x8664
  deriving DecidableEq

/-- The `binary` block of the LSP settings: `{path, arguments}`. -/
structure BinarySettings where
  path : Option String
  arguments : Option (List String)
  deriving DecidableEq

/-- `LspSettings` as consumed by the extension: just the optional `binary` block. -/
structure LspSettings where
  binary : Option BinarySettings
  deriving DecidableEq

/-- One asset of a GitHub release: `{name, download_url}`. -/
structure GithubReleaseAsset where
  name : String
  download_url : String
  deriving DecidableEq

/-- A GitHub release: `{version, assets}`. -/
structure GithubRelease where
  version : String
  assets : List GithubReleaseAsset
  deriving DecidableEq

/-- The worktree accessors the function uses: the shell environment snapshot,
the executable search (`which`), and the result of
`LspSettings::for_worktree("ols", worktree)` (`none` models the `Err` case,
which the code skips over). -/
structure Worktree where
  shellEnv : List (String × String)
  which : String → Option String
  lspSettings : Option LspSettings

/-- The installation statuses the function reports to the host. -/
inductive InstallationStatus where
  | checkingForUpdate
  | downloading
  deriving DecidableEq

/-- One observable effect of a resolution call, recorded in program order. -/
inductive Event where
  | shellEnvRead
  | lspSettingsRead
  | whichCall (name : String)
  | cacheLivenessCheck (path : String)
  | setStatus (status : InstallationStatus)
  | networkLatestRelease
  | createDirAll (dir : String)
  | downloadFile (url : String) (dir : String)
  | makeFileExecutable (path : String)
  | readWorkDir
  | removeEntry (name : String)
  deriving DecidableEq

/-- The external world a single resolution call runs against: the platform,
the worktree, the release feed's answer, the filesystem (liveness predicate
and top-level working-directory entries), and the outcome of each fallible
filesystem operation (`none` = success, `some e` = the underlying error). -/
structure World where
  platform : Os
  arch : Architecture
  worktree : Worktree
  latestRelease : Except String GithubRelease
  isFile : String → Bool
  workDirEntries : List String
  removeDirFails : String → Bool
  createDirErr : Option String
  downloadErr : Option String
  makeExecErr : Option String
  readDirErr : Option String

/-- `OlsBinary` — the resolved binary returned to the host. -/
structure OlsBinary where
  path : String
  args : Option (List String)
  environment : Option (List (String × String))
  deriving DecidableEq

/-- Everything a resolution call produces: the `Result`, the new
`cached_binary_path`, the effect trace, and the final working-directory
entries. -/
structure ResolveOutcome where
  result : Except String OlsBinary
  cached_binary_path : Option String
  events : List Event
  workDirEntries : List String

/-- The architecture token used in asset and binary names (`odin.rs:86-90`). -/
def archToken : Architecture → String
  | Architecture.aarch64 => "arm64"
  | Architecture.x86 => "x86"
  | Architecture.x8664 => "x86_64"

/-- The OS token used in asset and binary names (`odin.rs:91-95`). -/
def osToken : Os → String
  | Os.mac => "darwin"
  | Os.linux => "unknown-linux-gnu"
  | Os.windows => "pc-windows-msvc"

/-- The archive extension chosen per platform (`odin.rs:96-99`): the source
writes the match with two arms but both yield `"zip"`. -/
def archiveExtension : Os → String
  | Os.mac | Os.linux => "zip"
  | Os.windows => "zip"

/-- The expected asset name `ols-{arch}-{os}.{extension}` (`odin.rs:84-100`). -/
def assetName (arch : Architecture) (platform : Os) : String :=
  "ols-" ++ archToken arch ++ "-" ++ osToken platform ++ "." ++ archiveExtension platform

/-- The error message built at `odin.rs:107` when no asset matches
(`format!("no asset found matching {:?}", asset_name)`; `{:?}` on a plain
name just wraps it in quotes). -/
def assetNotFoundMsg (name : String) : String :=
  "no asset found matching \"" ++ name ++ "\""

/-- The version directory name `ols-{version}` (`odin.rs:109`). -/
def versionDir (release : GithubRelease) : String :=
  "ols-" ++ release.version

/-- The deterministic local binary path `{version_dir}/ols-{arch}-{os}`
(`odin.rs:112-124`). -/
def installedPath (release : GithubRelease) (arch : Architecture) (platform : Os) : String :=
  versionDir release ++ "/" ++ ("ols-" ++ archToken arch ++ "-" ++ osToken platform)

/-- The environment captured at `odin.rs:28-31`: the worktree shell
environment on mac and linux, nothing on windows. -/
def shellEnvironment (platform : Os) (worktree : Worktree) : Option (List (String × String)) :=
  match platform with
  | Os.mac | Os.linux => some worktree.shellEnv
  | Os.windows => none

/-- The trace of the environment capture: `worktree.shell_env()` is only
called on mac and linux. -/
def envCaptureEvents (platform : Os) : List Event :=
  match platform with
  | Os.mac | Os.linux => [Event.shellEnvRead]
  | Os.windows => []

/-- Effect of `fs::create_dir_all(&version_dir)` on the top-level
working-directory entries: a no-op when the directory already exists. -/
def create_dir_all (entries : List String) (dir : String) : List String :=
  if dir ∈ entries then entries else entries ++ [dir]

/-- The configured binary block, when `LspSettings::for_worktree` succeeded
and `binary` is present (`odin.rs:34-36`). -/
def configuredBinary (w : World) : Option BinarySettings :=
  match w.worktree.lspSettings with
  | some s => s.binary
  | none => none

/-- The configured binary path, when present (`odin.rs:37`). -/
def configuredPath (w : World) : Option String :=
  match configuredBinary w with
  | some b => b.path
  | none => none

/-- The `args` value in scope after the settings block (`odin.rs:24,36`):
the configured arguments when the `binary` block exists, else `None`. -/
def configuredArgs (w : World) : Option (List String) :=
  match configuredBinary w with
  | some b => b.arguments
  | none => none

/-- The remote-resolution tail of `language_server_binary`
(`odin.rs:68-161`): status signal, release query, asset selection, directory
creation, liveness check of the expected binary path, and — only when that
path is not a live file — the download / make-executable / cleanup sequence;
finally the cache update and return. -/
def remote_resolution (w : World) (cached : Option String) (args : Option (List String))
    (environment : Option (List (String × String))) : ResolveOutcome :=
  match w.latestRelease with
  | Except.error e =>
      { result := Except.error e, cached_binary_path := cached,
        events := [Event.setStatus InstallationStatus.checkingForUpdate,
          Event.networkLatestRelease],
        workDirEntries := w.workDirEntries }
  | Except.ok release =>
      match release.assets.find? (fun asset => asset.name == assetName w.arch w.platform) with
      | none =>
          { result := Except.error (assetNotFoundMsg (assetName w.arch w.platform)),
            cached_binary_path := cached,
            events := [Event.setStatus InstallationStatus.checkingForUpdate,
              Event.networkLatestRelease],
            workDirEntries := w.workDirEntries }
      | some asset =>
          match w.createDirErr with
          | some err =>
              { result := Except.error ("failed to create directory '" ++ versionDir release
                  ++ "': " ++ err),
                cached_binary_path := cached,
                events := [Event.setStatus InstallationStatus.checkingForUpdate,
                  Event.networkLatestRelease, Event.createDirAll (versionDir release)],
                workDirEntries := w.workDirEntries }
          | none =>
              let entries := create_dir_all w.workDirEntries (versionDir release)
              let binary_path := installedPath release w.arch w.platform
              if w.isFile binary_path then
                { result := Except.ok ⟨binary_path, args, environment⟩,
                  cached_binary_path := some binary_path,
                  events := [Event.setStatus InstallationStatus.checkingForUpdate,
                    Event.networkLatestRelease, Event.createDirAll (versionDir release)],
                  workDirEntries := entries }
              else
                let ev3 := [Event.setStatus InstallationStatus.checkingForUpdate,
                  Event.networkLatestRelease, Event.createDirAll (versionDir release),
                  Event.setStatus InstallationStatus.downloading,
                  Event.downloadFile asset.download_url (versionDir release)]
                match w.downloadErr with
                | some e =>
                    { result := Except.error ("failed to download file: " ++ e),
                      cached_binary_path := cached, events := ev3,
                      workDirEntries := entries }
                | none =>
                    match w.makeExecErr with
                    | some e =>
                        { result := Except.error e, cached_binary_path := cached,
                          events := ev3 ++ [Event.makeFileExecutable binary_path],
                          workDirEntries := entries }
                    | none =>
                        match w.readDirErr with
                        | some e =>
                            { result := Except.error ("failed to list working directory " ++ e),
                              cached_binary_path := cached,
                              events := ev3 ++ [Event.makeFileExecutable binary_path,
                                Event.readWorkDir],
                              workDirEntries := entries }
                        | none =>
                            { result := Except.ok ⟨binary_path, args, environment⟩,
                              cached_binary_path := some binary_path,
                              events := ev3 ++ [Event.makeFileExecutable binary_path,
                                Event.readWorkDir] ++ (entries.filter
                                (fun e => e != versionDir release)).map Event.removeEntry,
                              workDirEntries := entries.filter
                                (fun e => e == versionDir release || w.removeDirFails e) }

/-- The fallback chain after the settings block (`odin.rs:47-66`): the
`which` search, then the cache with its liveness check, then remote
resolution. -/
def after_config (w : World) (cached : Option String) (args : Option (List String))
    (environment : Option (List (String × String))) : ResolveOutcome :=
  match w.worktree.which "ols" with
  | some path =>
      { result := Except.ok ⟨path, args, environment⟩, cached_binary_path := some path,
        events := [Event.whichCall "ols"], workDirEntries := w.workDirEntries }
  | none =>
      match cached with
      | some path =>
          if w.isFile path then
            { result := Except.ok ⟨path, args, environment⟩, cached_binary_path := cached,
              events := [Event.whichCall "ols", Event.cacheLivenessCheck path],
              workDirEntries := w.workDirEntries }
          else
            let r := remote_resolution w cached args environment
            { r with events := [Event.whichCall "ols", Event.cacheLivenessCheck path]
                ++ r.events }
      | none =>
          let r := remote_resolution w cached args environment
          { r with events := [Event.whichCall "ols"] ++ r.events }

/-- `OdinExtension::language_server_binary` (`odin.rs:19-162`): environment
capture, then the settings override, then the `after_config` fallback chain.
`cached` is `self.cached_binary_path` on entry; the outcome carries its value
on exit. -/
def language_server_binary (w : World) (cached : Option String) : ResolveOutcome :=
  let environment := shellEnvironment w.platform w.worktree
  let ev := envCaptureEvents w.platform ++ [Event.lspSettingsRead]
  match w.worktree.lspSettings with
  | some lsp_settings =>
      match lsp_settings.binary with
      | some binary =>
          match binary.path with
          | some path =>
              { result := Except.ok ⟨path, binary.arguments, environment⟩,
                cached_binary_path := cached, events := ev,
                workDirEntries := w.workDirEntries }
          | none =>
              let r := after_config w cached binary.arguments environment
              { r with events := ev ++ r.events }
      | none =>
          let r := after_config w cached none environment
          { r with events := ev ++ r.events }
  | none =>
      let r := after_config w cached none environment
      { r with events := ev ++ r.events }

/-! ### Concrete worlds used by witnesses and counterexamples -/

/-- A worktree with no settings, no PATH hit, and an empty shell environment. -/
def emptyWorktree : Worktree :=
  { shellEnv := [], which := fun _ => none, lspSettings := none }

/-- A quiescent world: linux/x86_64, no settings, no PATH hit, feed offline,
no file exists, empty working directory, all filesystem operations succeed. -/
def baseWorld : World :=
  { platform := Os.linux, arch := Architecture.x8664, worktree := emptyWorktree,
    latestRelease := Except.error "offline", isFile := fun _ => false,
    workDirEntries := [], removeDirFails := fun _ => false,
    createDirErr := none, downloadErr := none, makeExecErr := none, readDirErr := none }

/-- A world whose LSP settings configure an explicit binary path and
arguments, with the cache empty and everything else quiescent. -/
def c1World : World :=
  { baseWorld with worktree := { emptyWorktree with
      lspSettings := some ⟨some ⟨some "/opt/ols", some ["--verbose"]⟩⟩ } }

/-- A world where the PATH search finds an `ols` executable. -/
def c2World : World :=
  { baseWorld with worktree := { emptyWorktree with
      which := fun _ => some "/usr/bin/ols" } }

/-- A world where every path is a live regular file (so a cached path hits). -/
def c3World : World :=
  { baseWorld with isFile := fun _ => true }

/-- A one-asset release matching linux/x86_64, used for install scenarios. -/
def sampleRelease : GithubRelease :=
  { version := "0.1.0",
    assets := [⟨"ols-x86_64-unknown-linux-gnu.zip", "https://example.com/ols.zip"⟩] }

/-- A world whose release feed answers with `sampleRelease` and where nothing
is installed yet. -/
def c4World : World :=
  { baseWorld with latestRelease := Except.ok sampleRelease }

/-- A release carrying only the two darwin assets of the spec's example. -/
def c5Release : GithubRelease :=
  { version := "0.3.0",
    assets := [⟨"ols-x86_64-darwin.zip", "url1"⟩, ⟨"ols-arm64-darwin.zip", "url2"⟩] }

/-- A mac/x86 world whose release feed answers with `c5Release`. -/
def c5World : World :=
  { baseWorld with
    platform := Os.mac
    arch := Architecture.x86
    latestRelease := Except.ok c5Release }

/-- A world with a stale sibling version directory `ols-0.0.9` on disk. -/
def c7World : World :=
  { baseWorld with
    latestRelease := Except.ok sampleRelease
    workDirEntries := ["ols-0.0.9"] }

/-! ### Helper lemmas about the stages of the fallback chain -/

theorem remote_resolution_env (w : World) (c : Option String) (a : Option (List String))
    (env : Option (List (String × String))) (b : OlsBinary)
    (h : (remote_resolution w c a env).result = Except.ok b) : b.environment = env := by
  unfold remote_resolution at h
  repeat' split at h
  all_goals dsimp only at h
  all_goals try split at h
  all_goals first
    | exact Except.noConfusion h
    | (injection h with h2; subst h2; rfl)

theorem after_config_env (w : World) (c : Option String) (a : Option (List String))
    (env : Option (List (String × String))) (b : OlsBinary)
    (h : (after_config w c a env).result = Except.ok b) : b.environment = env := by
  unfold after_config at h
  repeat' split at h
  all_goals dsimp only at h
  all_goals first
    | exact Except.noConfusion h
    | (injection h with h2; subst h2; rfl)
    | exact remote_resolution_env _ _ _ _ _ h

theorem remote_resolution_cache (w : World) (c : Option String) (a : Option (List String))
    (env : Option (List (String × String))) :
    (remote_resolution w c a env).cached_binary_path = c ∨
      ∃ q, (remote_resolution w c a env).cached_binary_path = some q := by
  unfold remote_resolution
  repeat' split
  all_goals dsimp only
  all_goals try split
  all_goals simp

theorem after_config_cache (w : World) (c : Option String) (a : Option (List String))
    (env : Option (List (String × String))) :
    (after_config w c a env).cached_binary_path = c ∨
      ∃ q, (after_config w c a env).cached_binary_path = some q := by
  unfold after_config
  repeat' split
  all_goals dsimp only
  all_goals first
    | simp
    | simpa using remote_resolution_cache w _ a env

theorem network_mem_remote (w : World) (c : Option String) (a : Option (List String))
    (env : Option (List (String × String))) :
    Event.networkLatestRelease ∈ (remote_resolution w c a env).events := by
  unfold remote_resolution
  repeat' split
  all_goals dsimp only
  all_goals try split
  all_goals simp

theorem language_server_binary_cache (w : World) (c : Option String) :
    (language_server_binary w c).cached_binary_path = c ∨
      ∃ q, (language_server_binary w c).cached_binary_path = some q := by
  unfold language_server_binary
  repeat' split
  all_goals dsimp only
  all_goals first
    | simp
    | exact after_config_cache w c _ _

theorem language_server_binary_no_config (w : World) (cached : Option String)
    (hc : configuredPath w = none) :
    language_server_binary w cached =
      { after_config w cached (configuredArgs w) (shellEnvironment w.platform w.worktree) with
        events := envCaptureEvents w.platform ++ [Event.lspSettingsRead] ++
          (after_config w cached (configuredArgs w)
            (shellEnvironment w.platform w.worktree)).events } := by
  rcases hls : w.worktree.lspSettings with _ | s
  · simp [language_server_binary, configuredArgs, configuredBinary, hls]
  · rcases hb : s.binary with _ | b
    · simp [language_server_binary, configuredArgs, configuredBinary, hls, hb]
    · rcases hp : b.path with _ | p
      · simp [language_server_binary, configuredArgs, configuredBinary, hls, hb, hp]
      · exfalso
        simp [configuredPath, configuredBinary, hls, hb, hp] at hc

theorem after_config_which_some (w : World) (cached : Option String)
    (a : Option (List String)) (env : Option (List (String × String))) (p : String)
    (hw : w.worktree.which "ols" = some p) :
    after_config w cached a env =
      { result := Except.ok ⟨p, a, env⟩, cached_binary_path := some p,
        events := [Event.whichCall "ols"], workDirEntries := w.workDirEntries } := by
  unfold after_config
  rw [hw]

theorem after_config_cache_hit (w : World) (a : Option (List String))
    (env : Option (List (String × String))) (p : String)
    (hw : w.worktree.which "ols" = none) (hf : w.isFile p = true) :
    after_config w (some p) a env =
      { result := Except.ok ⟨p, a, env⟩, cached_binary_path := some p,
        events := [Event.whichCall "ols", Event.cacheLivenessCheck p],
        workDirEntries := w.workDirEntries } := by
  unfold after_config
  rw [hw]
  simp [hf]

theorem after_config_cache_dead (w : World) (a : Option (List String))
    (env : Option (List (String × String))) (p : String)
    (hw : w.worktree.which "ols" = none) (hf : w.isFile p = false) :
    after_config w (some p) a env =
      { remote_resolution w (some p) a env with
        events := [Event.whichCall "ols", Event.cacheLivenessCheck p] ++
          (remote_resolution w (some p) a env).events } := by
  unfold after_config
  rw [hw]
  simp [hf]

theorem after_config_cache_empty (w : World) (a : Option (List String))
    (env : Option (List (String × String)))
    (hw : w.worktree.which "ols" = none) :
    after_config w none a env =
      { remote_resolution w none a env with
        events := [Event.whichCall "ols"] ++ (remote_resolution w none a env).events } := by
  unfold after_config
  rw [hw]

theorem remote_resolution_no_asset (w : World) (cached : Option String)
    (a : Option (List String)) (env : Option (List (String × String)))
    (release : GithubRelease)
    (hr : w.latestRelease = Except.ok release)
    (ha : release.assets.find? (fun x => x.name == assetName w.arch w.platform) = none) :
    remote_resolution w cached a env =
      { result := Except.error (assetNotFoundMsg (assetName w.arch w.platform)),
        cached_binary_path := cached,
        events := [Event.setStatus InstallationStatus.checkingForUpdate,
          Event.networkLatestRelease],
        workDirEntries := w.workDirEntries } := by
  unfold remote_resolution
  rw [hr]
  dsimp only
  rw [ha]

theorem remote_resolution_live (w : World) (cached : Option String)
    (a : Option (List String)) (env : Option (List (String × String)))
    (release : GithubRelease) (asset : GithubReleaseAsset)
    (hr : w.latestRelease = Except.ok release)
    (ha : release.assets.find? (fun x => x.name == assetName w.arch w.platform) = some asset)
    (hcd : w.createDirErr = none)
    (hlive : w.isFile (installedPath release w.arch w.platform) = true) :
    remote_resolution w cached a env =
      { result := Except.ok ⟨installedPath release w.arch w.platform, a, env⟩,
        cached_binary_path := some (installedPath release w.arch w.platform),
        events := [Event.setStatus InstallationStatus.checkingForUpdate,
          Event.networkLatestRelease, Event.createDirAll (versionDir release)],
        workDirEntries := create_dir_all w.workDirEntries (versionDir release) } := by
  unfold remote_resolution
  rw [hr]
  dsimp only
  rw [ha, hcd]
  simp [hlive]

theorem remote_resolution_install (w : World) (cached : Option String)
    (a : Option (List String)) (env : Option (List (String × String)))
    (release : GithubRelease) (asset : GithubReleaseAsset)
    (hr : w.latestRelease = Except.ok release)
    (ha : release.assets.find? (fun x => x.name == assetName w.arch w.platform) = some asset)
    (hcd : w.createDirErr = none)
    (hlive : w.isFile (installedPath release w.arch w.platform) = false)
    (hdl : w.downloadErr = none) (hme : w.makeExecErr = none) (hrd : w.readDirErr = none) :
    remote_resolution w cached a env =
      { result := Except.ok ⟨installedPath release w.arch w.platform, a, env⟩,
        cached_binary_path := some (installedPath release w.arch w.platform),
        events := [Event.setStatus InstallationStatus.checkingForUpdate,
          Event.networkLatestRelease, Event.createDirAll (versionDir release),
          Event.setStatus InstallationStatus.downloading,
          Event.downloadFile asset.download_url (versionDir release),
          Event.makeFileExecutable (installedPath release w.arch w.platform),
          Event.readWorkDir] ++
          ((create_dir_all w.workDirEntries (versionDir release)).filter
            (fun e => e != versionDir release)).map Event.removeEntry,
        workDirEntries := (create_dir_all w.workDirEntries (versionDir release)).filter
          (fun e => e == versionDir release || w.removeDirFails e) } := by
  unfold remote_resolution
  rw [hr]
  dsimp only
  rw [ha, hcd]
  simp [hlive, hdl, hme, hrd]

theorem remote_resolution_cache_ok (w : World) (c : Option String)
    (a : Option (List String)) (env : Option (List (String × String))) (b : OlsBinary) :
    (remote_resolution w c a env).result = Except.ok b →
    (remote_resolution w c a env).cached_binary_path = some b.path := by
  unfold remote_resolution
  repeat' split
  all_goals dsimp only
  all_goals try split
  all_goals intro h
  all_goals first
    | exact Except.noConfusion h
    | (injection h with h2; subst h2; rfl)

theorem after_config_cache_ok (w : World) (c : Option String)
    (a : Option (List String)) (env : Option (List (String × String))) (b : OlsBinary) :
    (after_config w c a env).result = Except.ok b →
    (after_config w c a env).cached_binary_path = some b.path := by
  unfold after_config
  repeat' split
  all_goals dsimp only
  all_goals intro h
  all_goals first
    | (injection h with h2; subst h2; rfl)
    | exact remote_resolution_cache_ok w _ a env b h

/-- On the remote path (no configured path, `which` misses, cache absent or
dead) the whole call is the remote-resolution outcome, prefixed by a trace
of capture/settings/which/liveness events that contains none of the
remote-stage events. -/
theorem remote_path_decomposition (w : World) (cached : Option String)
    (hc : configuredPath w = none) (hw : w.worktree.which "ols" = none)
    (hmiss : cached = none ∨ ∃ p, cached = some p ∧ w.isFile p = false) :
    ∃ pre,
      (language_server_binary w cached).result =
        (remote_resolution w cached (configuredArgs w)
          (shellEnvironment w.platform w.worktree)).result ∧
      (language_server_binary w cached).cached_binary_path =
        (remote_resolution w cached (configuredArgs w)
          (shellEnvironment w.platform w.worktree)).cached_binary_path ∧
      (language_server_binary w cached).workDirEntries =
        (remote_resolution w cached (configuredArgs w)
          (shellEnvironment w.platform w.worktree)).workDirEntries ∧
      (language_server_binary w cached).events =
        pre ++ (remote_resolution w cached (configuredArgs w)
          (shellEnvironment w.platform w.worktree)).events ∧
      (∀ s, Event.setStatus s ∉ pre) ∧
      (∀ u d, Event.downloadFile u d ∉ pre) ∧
      (∀ q, Event.makeFileExecutable q ∉ pre) ∧
      Event.readWorkDir ∉ pre ∧
      Event.networkLatestRelease ∉ pre ∧
      (∀ n, Event.removeEntry n ∉ pre) := by
  rcases hmiss with hnone | ⟨p, hp, hf⟩
  · subst hnone
    rw [language_server_binary_no_config w _ hc, after_config_cache_empty w _ _ hw]
    refine ⟨envCaptureEvents w.platform ++ [Event.lspSettingsRead, Event.whichCall "ols"],
      rfl, rfl, rfl, by simp, ?_, ?_, ?_, ?_, ?_, ?_⟩ <;>
      cases hpl : w.platform <;> simp [envCaptureEvents]
  · subst hp
    rw [language_server_binary_no_config w _ hc, after_config_cache_dead w _ _ p hw hf]
    refine ⟨envCaptureEvents w.platform ++ [Event.lspSettingsRead, Event.whichCall "ols",
      Event.cacheLivenessCheck p], rfl, rfl, rfl, by simp, ?_, ?_, ?_, ?_, ?_, ?_⟩ <;>
      cases hpl : w.platform <;> simp [envCaptureEvents]

/-- A duplicate-free list that contains `d` keeps exactly `[d]` when
filtered by equality with `d`. -/
theorem filter_beq_of_nodup (l : List String) (d : String)
    (hn : l.Nodup) (hd : d ∈ l) : l.filter (fun e => e == d) = [d] := by
  induction l with
  | nil => cases hd
  | cons x xs ih =>
      have hnx : x ∉ xs := (List.nodup_cons.mp hn).1
      rcases List.mem_cons.mp hd with hx | hx
      · subst hx
        have hnil : xs.filter (fun e => e == d) = [] := by
          apply List.filter_eq_nil_iff.mpr
          intro a ha
          simp only [beq_iff_eq]
          exact fun h => hnx (h ▸ ha)
        simp [List.filter_cons, hnil]
      · have hxd : ¬(x == d) = true := by
          simp only [beq_iff_eq]
          intro h
          subst h
          exact hnx hx
        simp only [List.filter_cons, hxd, if_neg, ite_false]
        exact ih (List.nodup_cons.mp hn).2 hx

/-! ### Claims -/

/-- C1: whenever the tool-specific settings specify a binary path,
`language_server_binary` returns exactly that path with the configured
arguments, leaves the cached path untouched, and performs no network call,
no cache liveness check, and no `which` search — independently of the cache
contents and of whether the path exists on disk. -/
theorem config_override_short_circuits (w : World) (cached : Option String)
    (b : BinarySettings) (p : String)
    (hb : configuredBinary w = some b) (hp : b.path = some p) :
    (language_server_binary w cached).result =
      Except.ok ⟨p, b.arguments, shellEnvironment w.platform w.worktree⟩ ∧
    (language_server_binary w cached).cached_binary_path = cached ∧
    Event.networkLatestRelease ∉ (language_server_binary w cached).events ∧
    (∀ q, Event.cacheLivenessCheck q ∉ (language_server_binary w cached).events) ∧
    (∀ n, Event.whichCall n ∉ (language_server_binary w cached).events) := by
  rcases hls : w.worktree.lspSettings with _ | s
  · simp [configuredBinary, hls] at hb
  · have hb' : s.binary = some b := by simpa [configuredBinary, hls] using hb
    simp only [language_server_binary, hls, hb', hp]
    refine ⟨trivial, trivial, ?_, ?_, ?_⟩ <;>
      cases hpl : w.platform <;> simp [envCaptureEvents]

/-- Witness for C1: in `c1World` (configured path `/opt/ols`, arguments
`--verbose`, cache empty, nothing on disk) resolution returns the configured
path verbatim. -/
theorem config_override_short_circuits_witness :
    (language_server_binary c1World none).result =
      Except.ok ⟨"/opt/ols", some ["--verbose"],
        shellEnvironment c1World.platform c1World.worktree⟩ :=
  (config_override_short_circuits c1World none ⟨some "/opt/ols", some ["--verbose"]⟩
    "/opt/ols" rfl rfl).1

/-- C2: with no configured binary path, a successful `which("ols")` search
returns that path, sets the cached path to it, and returns without any cache
liveness check and without consulting the release feed. -/
theorem which_hit_adopts_and_caches (w : World) (cached : Option String) (p : String)
    (hc : configuredPath w = none) (hw : w.worktree.which "ols" = some p) :
    (language_server_binary w cached).result =
      Except.ok ⟨p, configuredArgs w, shellEnvironment w.platform w.worktree⟩ ∧
    (language_server_binary w cached).cached_binary_path = some p ∧
    (∀ q, Event.cacheLivenessCheck q ∉ (language_server_binary w cached).events) ∧
    Event.networkLatestRelease ∉ (language_server_binary w cached).events := by
  rw [language_server_binary_no_config w cached hc,
    after_config_which_some w cached _ _ p hw]
  refine ⟨rfl, rfl, ?_, ?_⟩ <;>
    cases hpl : w.platform <;> simp [envCaptureEvents]

/-- Witness for C2: in `c2World` (no settings, `which` finds `/usr/bin/ols`)
resolution returns that path. -/
theorem which_hit_adopts_and_caches_witness :
    (language_server_binary c2World none).result =
      Except.ok ⟨"/usr/bin/ols", configuredArgs c2World,
        shellEnvironment c2World.platform c2World.worktree⟩ :=
  (which_hit_adopts_and_caches c2World none "/usr/bin/ols" rfl rfl).1

/-- C3: with no configured path and a failed `which` search: a cached path
that is a live regular file is returned with no network call; an absent or
dead cached path makes resolution proceed to the remote feed, and a dead
cached value is never cleared to `none` by the miss. -/
theorem cache_fallback_behavior (w : World) (cached : Option String)
    (hc : configuredPath w = none) (hw : w.worktree.which "ols" = none) :
    (∀ p, cached = some p → w.isFile p = true →
      (language_server_binary w cached).result =
        Except.ok ⟨p, configuredArgs w, shellEnvironment w.platform w.worktree⟩ ∧
      Event.networkLatestRelease ∉ (language_server_binary w cached).events) ∧
    ((cached = none ∨ ∃ p, cached = some p ∧ w.isFile p = false) →
      Event.networkLatestRelease ∈ (language_server_binary w cached).events) ∧
    (∀ p, cached = some p →
      ∃ q, (language_server_binary w cached).cached_binary_path = some q) := by
  refine ⟨?_, ?_, ?_⟩
  · intro p hp hf
    subst hp
    rw [language_server_binary_no_config w _ hc, after_config_cache_hit w _ _ p hw hf]
    refine ⟨rfl, ?_⟩
    cases hpl : w.platform <;> simp [envCaptureEvents]
  · intro hmiss
    rcases hmiss with hnone | ⟨p, hp, hf⟩
    · subst hnone
      rw [language_server_binary_no_config w _ hc, after_config_cache_empty w _ _ hw]
      simp [network_mem_remote]
    · subst hp
      rw [language_server_binary_no_config w _ hc, after_config_cache_dead w _ _ p hw hf]
      simp [network_mem_remote]
  · intro p hp
    rcases language_server_binary_cache w cached with hceq | hq
    · exact ⟨p, by rw [hceq, hp]⟩
    · exact hq

/-- Witness for C3: in `c3World` (no settings, no `which` hit, every path a
live file) a cached `/tmp/ols` is returned without a network call. -/
theorem cache_fallback_behavior_witness :
    (language_server_binary c3World (some "/tmp/ols")).result =
      Except.ok ⟨"/tmp/ols", configuredArgs c3World,
        shellEnvironment c3World.platform c3World.worktree⟩ ∧
    Event.networkLatestRelease ∉ (language_server_binary c3World (some "/tmp/ols")).events :=
  (cache_fallback_behavior c3World (some "/tmp/ols") rfl rfl).1 "/tmp/ols" rfl rfl

/-- C9: all nine `(os, arch)` pairs give non-empty architecture and OS
tokens, and the expected asset name determines the pair (the mapping is
injective). -/
theorem platform_tokens_injective (o o' : Os) (a a' : Architecture) :
    archToken a ≠ "" ∧ osToken o ≠ "" ∧
      (assetName a o = assetName a' o' → a = a' ∧ o = o') := by
  cases o <;> cases o' <;> cases a <;> cases a' <;> decide

/-- Witness for C9: applying the injectivity direction at `(mac, aarch64)`. -/
theorem platform_tokens_injective_witness :
    Architecture.aarch64 = Architecture.aarch64 ∧ Os.mac = Os.mac :=
  (platform_tokens_injective Os.mac Os.mac Architecture.aarch64 Architecture.aarch64).2.2 rfl

/-- C10: the cached binary path is monotone — once it holds a path, no
resolution call (succeeding or failing by any branch) resets it to `none`. -/
theorem cached_path_monotone (w : World) (cached : Option String) (p : String)
    (h : cached = some p) :
    ∃ q, (language_server_binary w cached).cached_binary_path = some q := by
  rcases language_server_binary_cache w cached with hceq | hq
  · exact ⟨p, by rw [hceq, h]⟩
  · exact hq

/-- Witness for C10: in `baseWorld` (everything misses and the remote feed
errors, so the call fails) a cached path survives the failed call. -/
theorem cached_path_monotone_witness :
    ∃ q, (language_server_binary baseWorld (some "/tmp/ols")).cached_binary_path = some q :=
  cached_path_monotone baseWorld (some "/tmp/ols") "/tmp/ols" rfl

/-- C4: on the remote-resolution path the download-install sequence
(Downloading status, download, make-executable, cleanup listing) runs if and
only if the deterministic local binary path is not already a live file; when
it is live, installation is skipped and the cache is set to that path; and a
later call with no configuration and no `which` hit returns the installed
path from the cache without touching the network. -/
theorem install_runs_iff_not_live (w : World) (cached : Option String)
    (release : GithubRelease) (asset : GithubReleaseAsset)
    (hc : configuredPath w = none) (hw : w.worktree.which "ols" = none)
    (hmiss : cached = none ∨ ∃ p, cached = some p ∧ w.isFile p = false)
    (hr : w.latestRelease = Except.ok release)
    (ha : release.assets.find? (fun x => x.name == assetName w.arch w.platform) = some asset)
    (hcd : w.createDirErr = none) :
    (w.isFile (installedPath release w.arch w.platform) = true →
      (language_server_binary w cached).result =
        Except.ok ⟨installedPath release w.arch w.platform, configuredArgs w,
          shellEnvironment w.platform w.worktree⟩ ∧
      (language_server_binary w cached).cached_binary_path =
        some (installedPath release w.arch w.platform) ∧
      Event.setStatus InstallationStatus.downloading ∉
        (language_server_binary w cached).events ∧
      (∀ u d, Event.downloadFile u d ∉ (language_server_binary w cached).events) ∧
      (∀ q, Event.makeFileExecutable q ∉ (language_server_binary w cached).events) ∧
      Event.readWorkDir ∉ (language_server_binary w cached).events) ∧
    (w.isFile (installedPath release w.arch w.platform) = false →
      w.downloadErr = none → w.makeExecErr = none → w.readDirErr = none →
      Event.setStatus InstallationStatus.downloading ∈
        (language_server_binary w cached).events ∧
      Event.downloadFile asset.download_url (versionDir release) ∈
        (language_server_binary w cached).events ∧
      Event.makeFileExecutable (installedPath release w.arch w.platform) ∈
        (language_server_binary w cached).events ∧
      Event.readWorkDir ∈ (language_server_binary w cached).events ∧
      (language_server_binary w cached).result =
        Except.ok ⟨installedPath release w.arch w.platform, configuredArgs w,
          shellEnvironment w.platform w.worktree⟩ ∧
      (language_server_binary w cached).cached_binary_path =
        some (installedPath release w.arch w.platform)) ∧
    (∀ w' : World, configuredPath w' = none → w'.worktree.which "ols" = none →
      w'.isFile (installedPath release w.arch w.platform) = true →
      (language_server_binary w' (some (installedPath release w.arch w.platform))).result =
        Except.ok ⟨installedPath release w.arch w.platform, configuredArgs w',
          shellEnvironment w'.platform w'.worktree⟩ ∧
      Event.networkLatestRelease ∉
        (language_server_binary w' (some (installedPath release w.arch w.platform))).events) := by
  obtain ⟨pre, hres, hcache, hent, hev, hst, hdf, hmx, hrwd, hnw, hrm⟩ :=
    remote_path_decomposition w cached hc hw hmiss
  refine ⟨?_, ?_, ?_⟩
  · intro hlive
    have hchar := remote_resolution_live w cached (configuredArgs w)
      (shellEnvironment w.platform w.worktree) release asset hr ha hcd hlive
    rw [hres, hcache, hev, hchar]
    refine ⟨rfl, rfl, ?_, ?_, ?_, ?_⟩
    · intro hmem
      rcases List.mem_append.mp hmem with h | h
      · exact hst _ h
      · simp at h
    · intro u d hmem
      rcases List.mem_append.mp hmem with h | h
      · exact hdf u d h
      · simp at h
    · intro q hmem
      rcases List.mem_append.mp hmem with h | h
      · exact hmx q h
      · simp at h
    · intro hmem
      rcases List.mem_append.mp hmem with h | h
      · exact hrwd h
      · simp at h
  · intro hlive hdl hme hrd
    have hchar := remote_resolution_install w cached (configuredArgs w)
      (shellEnvironment w.platform w.worktree) release asset hr ha hcd hlive hdl hme hrd
    rw [hres, hcache, hev, hchar]
    refine ⟨by simp, by simp, by simp, by simp, rfl, rfl⟩
  · intro w' hc' hw' hlive'
    rw [language_server_binary_no_config w' _ hc',
      after_config_cache_hit w' _ _ _ hw' hlive']
    refine ⟨rfl, ?_⟩
    cases hpl : w'.platform <;> simp [envCaptureEvents]

/-- Witness for C4: in `c4World` (release available, nothing installed) the
Downloading status is signalled. -/
theorem install_runs_iff_not_live_witness :
    Event.setStatus InstallationStatus.downloading ∈
      (language_server_binary c4World none).events :=
  ((install_runs_iff_not_live c4World none sampleRelease
      ⟨"ols-x86_64-unknown-linux-gnu.zip", "https://example.com/ols.zip"⟩
      rfl rfl (Or.inl rfl) rfl (by decide) rfl).2.1 rfl rfl rfl rfl).1

/-- C5: the expected asset name is `ols-{arch}-{os}.zip` with the same
extension on every platform; the locator takes the first asset whose name
matches exactly, and the call fails with the asset-not-found error carrying
the computed name exactly when no asset matches; on the spec's two-asset
darwin example, `(mac, aarch64)` selects the second asset and `(mac, x86)`
computes the name `ols-x86-darwin.zip`. -/
theorem release_locator_asset_matching (w : World) (cached : Option String)
    (release : GithubRelease)
    (hc : configuredPath w = none) (hw : w.worktree.which "ols" = none)
    (hmiss : cached = none ∨ ∃ p, cached = some p ∧ w.isFile p = false)
    (hr : w.latestRelease = Except.ok release)
    (hcd : w.createDirErr = none) (hdl : w.downloadErr = none)
    (hme : w.makeExecErr = none) (hrd : w.readDirErr = none) :
    (∀ os, archiveExtension os = "zip") ∧
    ((language_server_binary w cached).result =
        Except.error (assetNotFoundMsg (assetName w.arch w.platform)) ↔
      release.assets.find? (fun x => x.name == assetName w.arch w.platform) = none) ∧
    (∀ asset,
      release.assets.find? (fun x => x.name == assetName w.arch w.platform) = some asset →
      w.isFile (installedPath release w.arch w.platform) = false →
      Event.downloadFile asset.download_url (versionDir release) ∈
        (language_server_binary w cached).events) ∧
    ([(⟨"ols-x86_64-darwin.zip", "url1"⟩ : GithubReleaseAsset),
        ⟨"ols-arm64-darwin.zip", "url2"⟩].find?
        (fun x => x.name == assetName Architecture.aarch64 Os.mac) =
      some ⟨"ols-arm64-darwin.zip", "url2"⟩) ∧
    assetNotFoundMsg (assetName Architecture.x86 Os.mac) =
      "no asset found matching \"ols-x86-darwin.zip\"" := by
  obtain ⟨pre, hres, hcache, hent, hev, hst, hdf, hmx, hrwd, hnw, hrm⟩ :=
    remote_path_decomposition w cached hc hw hmiss
  refine ⟨fun os => by cases os <;> rfl, ?_, ?_, by decide, rfl⟩
  · cases hfa : release.assets.find? (fun x => x.name == assetName w.arch w.platform) with
    | none =>
        rw [hres, remote_resolution_no_asset w cached _ _ release hr hfa]
        simp
    | some asset =>
        cases hlv : w.isFile (installedPath release w.arch w.platform) with
        | false =>
            rw [hres, remote_resolution_install w cached _ _ release asset hr hfa hcd hlv
              hdl hme hrd]
            simp
        | true =>
            rw [hres, remote_resolution_live w cached _ _ release asset hr hfa hcd hlv]
            simp
  · intro asset hfa hlv
    rw [hev, remote_resolution_install w cached _ _ release asset hr hfa hcd hlv hdl hme hrd]
    simp

/-- Witness for C5: in `c5World` (mac/x86, only darwin x86_64 and arm64
assets) resolution fails with the asset-not-found error naming
`ols-x86-darwin.zip`. -/
theorem release_locator_asset_matching_witness :
    (language_server_binary c5World none).result =
      Except.error (assetNotFoundMsg (assetName c5World.arch c5World.platform)) :=
  ((release_locator_asset_matching c5World none c5Release
      rfl rfl (Or.inl rfl) rfl rfl rfl rfl rfl).2.1).mpr (by decide)

/-- Counterexample to C6 as stated: with a configured binary path `/opt/ols`
and an empty cache, resolution succeeds with `/opt/ols` yet the cached path
stays empty — the configuration-override branch (`odin.rs:38-43`) returns
without writing `self.cached_binary_path`. -/
theorem cache_set_on_all_branches_counterexample :
    (language_server_binary c1World none).result =
      Except.ok ⟨"/opt/ols", some ["--verbose"], some []⟩ ∧
    ¬(language_server_binary c1World none).cached_binary_path = some "/opt/ols" :=
  ⟨rfl, by decide⟩

/-- C6 (amended): after every resolution call that returns a binary through
environment discovery, cache hit, or remote install — that is, whenever no
binary path is configured — the cached path equals the returned binary's
path; the configuration-override branch instead leaves the cached path
unchanged. -/
theorem cache_set_on_success_unless_override (w : World) (cached : Option String) :
    (configuredPath w = none → ∀ b,
      (language_server_binary w cached).result = Except.ok b →
      (language_server_binary w cached).cached_binary_path = some b.path) ∧
    (∀ p, configuredPath w = some p →
      (language_server_binary w cached).cached_binary_path = cached) := by
  constructor
  · intro hc b hok
    rw [language_server_binary_no_config w cached hc] at hok ⊢
    exact after_config_cache_ok w cached _ _ b hok
  · intro p hp
    rcases hls : w.worktree.lspSettings with _ | s
    · simp [configuredPath, configuredBinary, hls] at hp
    · rcases hb : s.binary with _ | bs
      · simp [configuredPath, configuredBinary, hls, hb] at hp
      · have hbp : bs.path = some p := by
          simpa [configuredPath, configuredBinary, hls, hb] using hp
        simp [language_server_binary, hls, hb, hbp]

/-- Witness for C6 (amended): in `c2World` the `which` hit `/usr/bin/ols` is
written to the cache. -/
theorem cache_set_on_success_unless_override_witness :
    (language_server_binary c2World none).cached_binary_path = some "/usr/bin/ols" :=
  (cache_set_on_success_unless_override c2World none).1 rfl
    ⟨"/usr/bin/ols", none, some []⟩ rfl

/-- C7: after a successful install, the final working-directory entries are
exactly the created-directory listing filtered to the version directory and
the entries whose removal failed; removal failures never surface (the call
still succeeds), and when every removal succeeds exactly the version
directory `ols-<version>` remains. -/
theorem cleanup_prunes_siblings (w : World) (cached : Option String)
    (release : GithubRelease) (asset : GithubReleaseAsset)
    (hc : configuredPath w = none) (hw : w.worktree.which "ols" = none)
    (hmiss : cached = none ∨ ∃ p, cached = some p ∧ w.isFile p = false)
    (hr : w.latestRelease = Except.ok release)
    (ha : release.assets.find? (fun x => x.name == assetName w.arch w.platform) = some asset)
    (hcd : w.createDirErr = none)
    (hlive : w.isFile (installedPath release w.arch w.platform) = false)
    (hdl : w.downloadErr = none) (hme : w.makeExecErr = none) (hrd : w.readDirErr = none)
    (hnd : w.workDirEntries.Nodup) :
    (language_server_binary w cached).result =
      Except.ok ⟨installedPath release w.arch w.platform, configuredArgs w,
        shellEnvironment w.platform w.worktree⟩ ∧
    (language_server_binary w cached).workDirEntries =
      (create_dir_all w.workDirEntries (versionDir release)).filter
        (fun e => e == versionDir release || w.removeDirFails e) ∧
    ((∀ e, w.removeDirFails e = false) →
      (language_server_binary w cached).workDirEntries = [versionDir release]) := by
  obtain ⟨pre, hres, hcache, hent, hev, hst, hdf, hmx, hrwd, hnw, hrm⟩ :=
    remote_path_decomposition w cached hc hw hmiss
  have hinst := remote_resolution_install w cached (configuredArgs w)
    (shellEnvironment w.platform w.worktree) release asset hr ha hcd hlive hdl hme hrd
  refine ⟨?_, ?_, ?_⟩
  · rw [hres, hinst]
  · rw [hent, hinst]
  · intro hfail
    rw [hent, hinst]
    have hfun : (fun e => e == versionDir release || w.removeDirFails e) =
        (fun e => e == versionDir release) := by
      funext e
      rw [hfail e, Bool.or_false]
    dsimp only
    rw [hfun]
    apply filter_beq_of_nodup
    · unfold create_dir_all
      split
      · exact hnd
      · next hmem =>
          refine List.Nodup.append hnd (List.nodup_singleton _) ?_
          intro x hx hx2
          simp only [List.mem_singleton] at hx2
          subst hx2
          exact hmem hx
    · unfold create_dir_all
      split
      · assumption
      · simp

/-- Witness for C7: in `c7World` (stale sibling `ols-0.0.9` on disk,
install of `0.1.0` succeeds, no removal failure) only `ols-0.1.0` remains. -/
theorem cleanup_prunes_siblings_witness :
    (language_server_binary c7World none).workDirEntries = [versionDir sampleRelease] :=
  (cleanup_prunes_siblings c7World none sampleRelease
      ⟨"ols-x86_64-unknown-linux-gnu.zip", "https://example.com/ols.zip"⟩
      rfl rfl (Or.inl rfl) rfl (by decide) rfl rfl rfl rfl rfl (by decide)).2.2
    (fun _ => rfl)

/-- C8: the environment is captured once at the very start of every call —
the trace begins with the capture followed by the settings read — its value
is the worktree shell environment on mac and linux and absent on windows,
and every branch (the configuration override included) attaches exactly the
captured value to the returned binary. -/
theorem environment_captured_once (w : World) (cached : Option String) :
    (∃ rest, (language_server_binary w cached).events =
      envCaptureEvents w.platform ++ [Event.lspSettingsRead] ++ rest) ∧
    (∀ b, (language_server_binary w cached).result = Except.ok b →
      b.environment = shellEnvironment w.platform w.worktree) ∧
    (∀ wt, shellEnvironment Os.mac wt = some wt.shellEnv) ∧
    (∀ wt, shellEnvironment Os.linux wt = some wt.shellEnv) ∧
    (∀ wt, shellEnvironment Os.windows wt = none) := by
  refine ⟨?_, ?_, fun wt => rfl, fun wt => rfl, fun wt => rfl⟩
  · rcases hls : w.worktree.lspSettings with _ | s
    · refine ⟨(after_config w cached none (shellEnvironment w.platform w.worktree)).events, ?_⟩
      simp [language_server_binary, hls]
    · rcases hb : s.binary with _ | bs
      · refine ⟨(after_config w cached none
          (shellEnvironment w.platform w.worktree)).events, ?_⟩
        simp [language_server_binary, hls, hb]
      · rcases hp : bs.path with _ | p
        · refine ⟨(after_config w cached bs.arguments
            (shellEnvironment w.platform w.worktree)).events, ?_⟩
          simp [language_server_binary, hls, hb, hp]
        · refine ⟨[], ?_⟩
          simp [language_server_binary, hls, hb, hp]
  · intro b hok
    by_cases hc : configuredPath w = none
    · rw [language_server_binary_no_config w cached hc] at hok
      exact after_config_env w cached _ _ b hok
    · rcases hls : w.worktree.lspSettings with _ | s
      · exact absurd (by simp [configuredPath, configuredBinary, hls]) hc
      · rcases hb : s.binary with _ | bs
        · exact absurd (by simp [configuredPath, configuredBinary, hls, hb]) hc
        · rcases hp : bs.path with _ | p
          · exact absurd (by simp [configuredPath, configuredBinary, hls, hb, hp]) hc
          · simp only [language_server_binary, hls, hb, hp] at hok
            injection hok with h2
            subst h2
            rfl

/-- Witness for C8: in `c2World` (a linux world resolving via `which`) the
returned binary carries the captured shell environment. -/
theorem environment_captured_once_witness :
    (⟨"/usr/bin/ols", none, some []⟩ : OlsBinary).environment =
      shellEnvironment c2World.platform c2World.worktree :=
  (environment_captured_once c2World none).2.1 ⟨"/usr/bin/ols", none, some []⟩ rfl

end ZedOdin
